/-
Verification of the LADOT street-sweeping data-preparation pipeline
(`src/prepare.py`) against its natural-language specification.

The pandas pipeline is shallowly embedded:
* a DataFrame is modelled at two levels of abstraction,
  - an untyped `Frame` (column names plus rows of optional cell strings),
    used for `drop_features`, whose claims concern the raw column set and
    the in-place mutation of the caller's table, and
  - typed row records (`RawRow`, `KeptRow`, `TimedRow`, `PreparedRow`)
    for the later stages, whose claims concern typed values;
* `NaN` / missing cells are `Option.none`;
* float currency and coordinate values are `Rat` (their exact values);
* the raw `issue_time` column is a non-negative integral encoding
  (spec §3: integer-like string such as "1430", "930", "0"), so it is a
  `Nat`; `str(int(t))` digit slicing is modelled by decimal-digit
  arithmetic on that `Nat`;
* Python exceptions (`ValueError` from `datetime.time`) are `Except`;
* the pyproj Lambert-conformal-conic transform call is an external
  floating-point collaborator and is passed in as an explicit function
  argument `f`; everything `convert_coordinates` does around that call
  (column assignment, rounding, sentinel filtering) is embedded exactly;
* the on-disk cache of `prep_sweep_data` is an explicit `CacheState`
  (`none` = `./data/prepared/train.csv` absent, `some a` = artifact `a`
  present); reading the artifact back is the identity on the stored
  table (CSV serialisation is not re-modelled).
-/
import Mathlib

set_option maxHeartbeats 2000000

namespace Sweep

/-! ## Untyped frame model (for `drop_features`, src/prepare.py:14-49)

A pandas DataFrame as its column-name list together with rows of cells,
each cell `Option String` (`none` = NaN). -/

structure Frame where
  cols : List String
  rows : List (List (Option String))
deriving DecidableEq, Repr

/-- `DataFrame.drop_duplicates` keeps the first occurrence of each
distinct full row. -/
def dedupFirst {α : Type} [DecidableEq α] : List α → List α
  | [] => []
  | x :: xs => x :: (dedupFirst xs).filter (fun y => y ≠ x)

/-- The column list passed to `data.drop(columns=...)`
(src/prepare.py:39-42). -/
def features_to_drop : List String :=
  ["vin", "rp_state_plate", "plate_expiry_date", "make",
   "body_style", "color", "marked_time", "color_description",
   "body_style_description", "agency_description", "meter_id",
   "ticket_number", "violation_code"]

/-- A column survives `drop(columns=features_to_drop)`. -/
def keepCol (c : String) : Bool := !(features_to_drop.contains c)

/-- Project one row onto the retained columns (entries are aligned with
the frame's column list, as in a DataFrame). -/
def projRow (cols : List String) (row : List (Option String)) :
    List (Option String) :=
  ((cols.zip row).filter (fun p => keepCol p.1)).map Prod.snd

/-- A row has no missing value (`dropna(axis=0)` keeps it). -/
def rowComplete (row : List (Option String)) : Bool :=
  row.all Option.isSome

/-- `drop_features` (src/prepare.py:14-49).  The first component is the
caller's table after the call: `drop_duplicates(inplace=True)` and
`drop(columns=..., inplace=True)` mutate the argument frame, while the
final `dropna` builds a new frame.  The second component is the returned
dataset. -/
def drop_features_run (data : Frame) : Frame × Frame :=
  let deduped := dedupFirst data.rows
  let colsAfter := data.cols.filter keepCol
  let mutated : Frame := ⟨colsAfter, deduped.map (projRow data.cols)⟩
  let returned : Frame := ⟨colsAfter, mutated.rows.filter rowComplete⟩
  (mutated, returned)

/-- The dataset returned by `drop_features`. -/
def drop_features_frame (data : Frame) : Frame :=
  (drop_features_run data).2

/-! ## Decimal-digit slicing (for `cast_time`, src/prepare.py:52-89)

`data.issue_time.astype('int').astype('str')` turns the raw encoding
into its decimal string; the parse loop slices that string by length. -/

/-- Digit-count worker: structural recursion on a fuel argument (any
fuel at least the digit count, in particular `n` itself, computes the
true decimal length). -/
def decLenAux : Nat → Nat → Nat
  | 0, _ => 1
  | fuel + 1, n => if n < 10 then 1 else decLenAux fuel (n / 10) + 1

/-- Length of `str(n)` for a non-negative integer `n` (the decimal
string of `0` is `"0"`, length 1). -/
def decLen (n : Nat) : Nat := decLenAux n n

/-- The number formed by the first `k` characters of `str(n)`
(`t[:k]`). -/
def decTake (n k : Nat) : Nat := n / 10 ^ (decLen n - k)

/-- The number formed by the characters of `str(n)` from position `k`
on (`t[k:]`). -/
def decDrop (n k : Nat) : Nat := n % 10 ^ (decLen n - k)

/-- The `(h, m)` pair produced by the length dispatch of the parse loop
(src/prepare.py:70-81): 4 digits → first two / last two, 3 digits →
first / last two, otherwise the `'0'`/`'0'` sentinel branch. -/
def parseHM (n : Nat) : Nat × Nat :=
  if decLen n = 4 then (decTake n 2, decDrop n 2)
  else if decLen n = 3 then (decTake n 1, decDrop n 1)
  else (0, 0)

/-- `datetime.time` value (seconds are always zero in this pipeline). -/
structure TimeHM where
  hour : Nat
  minute : Nat
deriving DecidableEq, Repr

/-- `datetime.time(hour=h, minute=m)` validates its arguments and
raises `ValueError` out of range (src/prepare.py:82). -/
def mkTime (h m : Nat) : Except String TimeHM :=
  if h ≤ 23 ∧ m ≤ 59 then .ok ⟨h, m⟩ else .error "ValueError"

/-- The parse loop of `cast_time` over the integer-cast `issue_time`
column: builds the `times` list, propagating any `ValueError` raised by
`datetime.time` (the loop has no try/except, src/prepare.py:67-82). -/
def castList : List Nat → Except String (List TimeHM)
  | [] => .ok []
  | n :: ns =>
    match mkTime (parseHM n).1 (parseHM n).2 with
    | .error e => .error e
    | .ok t =>
      match castList ns with
      | .error e => .error e
      | .ok ts => .ok (t :: ts)

/-! ## Typed row model of the pipeline -/

/-- A calendar date (`issue_date` after `pd.to_datetime`). -/
structure DateYMD where
  year : Nat
  month : Nat
  day : Nat
deriving DecidableEq, Repr

/-- A raw citation row, all 22 columns of the acquired CSV with
already-normalised names; every cell may be NaN. -/
structure RawRow where
  issue_date : Option DateYMD
  issue_time : Option Nat
  location : Option String
  route : Option String
  agency : Option String
  violation_description : Option String
  fine_amount : Option Rat
  latitude : Option Rat
  longitude : Option Rat
  vin : Option String
  rp_state_plate : Option String
  plate_expiry_date : Option String
  make : Option String
  body_style : Option String
  color : Option String
  marked_time : Option String
  color_description : Option String
  body_style_description : Option String
  agency_description : Option String
  meter_id : Option String
  ticket_number : Option String
  violation_code : Option String
deriving DecidableEq, Repr

/-- A row after `drop_features`: the nine retained columns, with
definite values (the `dropna` guarantee lets the later stages assume no
cell is missing). -/
structure KeptRow where
  issue_date : DateYMD
  issue_time : Nat
  location : String
  route : String
  agency : String
  violation_description : String
  fine_amount : Rat
  latitude : Rat
  longitude : Rat
deriving DecidableEq, Repr

/-- `dropna(axis=0)`: a row survives iff none of its retained cells is
missing, in which case its definite values are extracted. -/
def toKept (r : RawRow) : Option KeptRow :=
  match r.issue_date, r.issue_time, r.location, r.route, r.agency,
      r.violation_description, r.fine_amount, r.latitude, r.longitude with
  | some d, some t, some loc, some rt, some ag, some vd, some fa,
      some la, some lo =>
    some ⟨d, t, loc, rt, ag, vd, fa, la, lo⟩
  | _, _, _, _, _, _, _, _, _ => none

/-- `drop_features` (src/prepare.py:14-49) at the typed level:
duplicates are removed first (on full 22-column rows), then the 13
columns are dropped and rows with a missing retained cell removed. -/
def drop_features (data : List RawRow) : List KeptRow :=
  (dedupFirst data).filterMap toKept

/-- A row after `cast_time`: `issue_time` is now a `datetime.time`. -/
structure TimedRow where
  issue_date : DateYMD
  issue_time : TimeHM
  location : String
  route : String
  agency : String
  violation_description : String
  fine_amount : Rat
  latitude : Rat
  longitude : Rat
deriving DecidableEq, Repr

/-- Write the parsed `times` column back over `issue_time`
(src/prepare.py:84). -/
def withTime (r : KeptRow) (t : TimeHM) : TimedRow :=
  ⟨r.issue_date, t, r.location, r.route, r.agency,
   r.violation_description, r.fine_amount, r.latitude, r.longitude⟩

/-- `cast_time` (src/prepare.py:52-89): parse every `issue_time` by
digit count, assign the column back, then drop the rows whose time is
the `00:00:00` sentinel.  A `ValueError` from `datetime.time` is not
caught and aborts the whole call. -/
def cast_time (rows : List KeptRow) : Except String (List TimedRow) :=
  match castList (rows.map (fun r => r.issue_time)) with
  | .error e => .error e
  | .ok ts =>
    .ok (((rows.zip ts).map (fun p => withTime p.1 p.2)).filter
      (fun r => r.issue_time ≠ ⟨0, 0⟩))

/-! ## Coordinate conversion (`convert_coordinates`, src/prepare.py:92-136) -/

/-- Round half to even of the fraction `p / d` (`d` positive), by exact
integer arithmetic: `f` is its floor and `r / d` its fractional part. -/
def roundHalfEven (p d : Int) : Int :=
  let f := Int.fdiv p d
  let r := p - f * d
  if 2 * r < d then f
  else if d < 2 * r then f + 1
  else if f % 2 = 0 then f else f + 1

/-- `np.round(x, 4)`: round half to even at the fourth decimal (float
representation error is not modelled; the scaled value `q * 10^4` is
handled as the exact fraction `q.num * 10^4 / q.den`). -/
def round4 (q : Rat) : Rat :=
  mkRat (roundHalfEven (q.num * 10000) (q.den : Int)) 10000

/-- `convert_coordinates` (src/prepare.py:92-136), parameterised by the
pyproj `transform` call `f` (an external floating-point collaborator):
`f` maps the stored `(latitude, longitude)` state-plane pair to the
`(longitude, latitude)` result pair, which is assigned back, rounded to
4 decimals, and rows equal to the 99999.0 sentinel in either axis are
dropped. -/
def convert_coordinates (f : Rat → Rat → Rat × Rat)
    (rows : List TimedRow) : List TimedRow :=
  (rows.map (fun r =>
      let p := f r.latitude r.longitude
      { r with longitude := round4 p.1, latitude := round4 p.2 })
  ).filter (fun r => r.longitude ≠ 99999 ∧ r.latitude ≠ 99999)

/-! ## Calendar arithmetic

`pd.Timestamp.day_name`, `np.is_busday` and the resampling bucket keys
need a day count.  Dates are counted in days since 0000-03-01 of the
proleptic Gregorian calendar (Unix day 0, 1970-01-01, is day 719468;
the algorithms are the standard exact civil-calendar conversions). -/

/-- Day number of a civil date. -/
def daysFromCivil (y m d : Nat) : Nat :=
  let y2 := if m ≤ 2 then y - 1 else y
  let era := y2 / 400
  let yoe := y2 % 400
  let mp := if m ≤ 2 then m + 9 else m - 3
  let doy := (153 * mp + 2) / 5 + d - 1
  let doe := yoe * 365 + yoe / 4 - yoe / 100 + doy
  era * 146097 + doe

/-- Civil date of a day number. -/
def civilFromDays (c : Nat) : DateYMD :=
  let era := c / 146097
  let doe := c % 146097
  let yoe := (doe - doe / 1460 + doe / 36524 - doe / 146096) / 365
  let y := yoe + era * 400
  let doy := doe - (365 * yoe + yoe / 4 - yoe / 100)
  let mp := (5 * doy + 2) / 153
  let d := doy - (153 * mp + 2) / 5 + 1
  let m := if mp < 10 then mp + 3 else mp - 9
  ⟨if m ≤ 2 then y + 1 else y, m, d⟩

/-- Day of week of a day number, 0 = Sunday … 6 = Saturday
(day 719468 = 1970-01-01 was a Thursday). -/
def weekday (c : Nat) : Nat := (c + 3) % 7

/-- `pd.Timestamp.day_name()`. -/
def dayName (w : Nat) : String :=
  match w with
  | 0 => "Sunday"
  | 1 => "Monday"
  | 2 => "Tuesday"
  | 3 => "Wednesday"
  | 4 => "Thursday"
  | 5 => "Friday"
  | _ => "Saturday"

/-- `np.is_busday`: Monday through Friday, no holiday calendar. -/
def isBusday (c : Nat) : Bool :=
  1 ≤ weekday c && weekday c ≤ 5

/-- Day number of a row's issue date. -/
def dateKey (d : DateYMD) : Nat := daysFromCivil d.year d.month d.day

/-! ## Feature augmentation (`add_features`, src/prepare.py:139-164) -/

/-- A fully prepared citation row. -/
structure PreparedRow where
  issue_date : DateYMD
  issue_time : TimeHM
  location : String
  route : String
  agency : String
  violation_description : String
  fine_amount : Rat
  latitude : Rat
  longitude : Rat
  citation_year : Nat
  citation_month : Nat
  citation_day : Nat
  day_of_week : String
  citation_hour : Nat
  citation_minute : Nat
deriving DecidableEq, Repr

/-- `add_features` (src/prepare.py:139-164): append year, month, day,
day-of-week name, hour and minute columns derived from the normalised
date and time. -/
def add_features_row (r : TimedRow) : PreparedRow :=
  ⟨r.issue_date, r.issue_time, r.location, r.route, r.agency,
   r.violation_description, r.fine_amount, r.latitude, r.longitude,
   r.issue_date.year, r.issue_date.month, r.issue_date.day,
   dayName (weekday (dateKey r.issue_date)),
   r.issue_time.hour, r.issue_time.minute⟩

def add_features (rows : List TimedRow) : List PreparedRow :=
  rows.map add_features_row

/-! ## Orchestrator (`prep_sweep_data`, src/prepare.py:247-297) -/

/-- The ordering `datetime.time` values are compared by
(lexicographic on hour, then minute). -/
def timeLe (a b : TimeHM) : Prop :=
  a.hour < b.hour ∨ (a.hour = b.hour ∧ a.minute ≤ b.minute)

instance : DecidableRel timeLe := fun a b => by
  unfold timeLe
  exact inferInstance

/-- The ordering of `sort_values(by=['issue_date', 'issue_time'])`:
lexicographic on the date (compared as a day count) and then the
time of day. -/
def rowLe (a b : PreparedRow) : Prop :=
  dateKey a.issue_date < dateKey b.issue_date ∨
    (dateKey a.issue_date = dateKey b.issue_date ∧
      timeLe a.issue_time b.issue_time)

instance : DecidableRel rowLe := fun a b => by
  unfold rowLe timeLe
  exact inferInstance

instance : IsTotal PreparedRow rowLe := by
  constructor
  intro a b
  unfold rowLe timeLe
  omega

instance : IsTrans PreparedRow rowLe := by
  constructor
  intro a b c
  unfold rowLe timeLe
  omega

/-- Lower bound of the citation-time window (src/prepare.py:288). -/
def min_time : TimeHM := ⟨7, 30⟩

/-- Upper bound of the citation-time window (src/prepare.py:289). -/
def max_time : TimeHM := ⟨15, 30⟩

/-- The derivation branch of `prep_sweep_data` (src/prepare.py:272-297):
clean, normalise times, convert coordinates, augment, sort by
`(issue_date, issue_time)` ascending, and filter to the inclusive
07:30-15:30 window.  Column-name normalisation (line 274) is implicit:
the typed `RawRow` fields already carry the normalised names.  The
index reset (line 285) is implicit in the list representation. -/
def prep_derive (f : Rat → Rat → Rat × Rat) (data : List RawRow) :
    Except String (List PreparedRow) :=
  match cast_time (drop_features data) with
  | .error e => .error e
  | .ok d2 =>
    .ok ((List.insertionSort rowLe
        (add_features (convert_coordinates f d2))).filter
      (fun r => decide (timeLe min_time r.issue_time) &&
        decide (timeLe r.issue_time max_time)))

/-- The state of `./data/prepared/train.csv`: `none` if the file does
not exist, `some a` if it holds artifact `a` (reading it back is the
identity on the stored table; CSV serialisation is not re-modelled). -/
structure CacheState where
  content : Option (List PreparedRow)
deriving DecidableEq, Repr

/-- `prep_sweep_data` (src/prepare.py:247-297): if the canonical
artifact exists it is loaded and returned with the cache untouched;
otherwise the table is derived, persisted, and returned. -/
def prep_sweep_data (f : Rat → Rat → Rat × Rat) (s : CacheState)
    (data : List RawRow) :
    Except String (CacheState × List PreparedRow) :=
  match s.content with
  | some dataset => .ok (s, dataset)
  | none =>
    match prep_derive f data with
    | .error e => .error e
    | .ok dataset => .ok (⟨some dataset⟩, dataset)

/-! ## Time-series aggregation (src/prepare.py:172-240)

`street_sweep` sets the index to `issue_date`; the column selection
`[['fine_amount']]` happens inside `resample_period`, so the embedding
reads the date and fine amount straight off the prepared rows. -/

/-- Resampling granularity (`rule` argument). -/
inductive Period
  | D
  | M
deriving DecidableEq, Repr

/-- The bucket a date falls into: its day count for daily resampling,
its linear month index (year*12 + month-1) for monthly resampling. -/
def bucketKey (p : Period) (d : DateYMD) : Nat :=
  match p with
  | .D => dateKey d
  | .M => d.year * 12 + (d.month - 1)

/-- One row of the resampled revenue table.  `revenue = none` is NaN;
`is_business_day = none` means the column is absent (non-daily rule). -/
structure RevBucket where
  key : Nat
  revenue : Option Rat
  is_business_day : Option Bool
deriving DecidableEq, Repr

/-- `resample(rule)[['fine_amount']].sum()` for one bucket. -/
def sumFines (rows : List PreparedRow) (p : Period) (k : Nat) : Rat :=
  ((rows.filter (fun r => bucketKey p r.issue_date == k)).map
    (fun r => r.fine_amount)).sum

/-- Smallest bucket key among the rows (the resampled range starts at
the earliest index value). -/
def keyLo (p : Period) : List PreparedRow → Nat
  | [] => 0
  | r :: rs =>
    rs.foldl (fun acc x => min acc (bucketKey p x.issue_date))
      (bucketKey p r.issue_date)

/-- Largest bucket key among the rows. -/
def keyHi (p : Period) : List PreparedRow → Nat
  | [] => 0
  | r :: rs =>
    rs.foldl (fun acc x => max acc (bucketKey p x.issue_date))
      (bucketKey p r.issue_date)

/-- `resample_period` (src/prepare.py:191-214): sum fines over every
bucket of the complete range between the earliest and latest index
value; for the daily rule add the business-day flag and replace the
revenue of non-business days (`where`) and of zero-sum buckets
(`replace(0, NaN)`) by NaN. -/
def resample_period (rows : List PreparedRow) (p : Period) :
    List RevBucket :=
  match rows with
  | [] => []
  | _ :: _ =>
    let lo := keyLo p rows
    let hi := keyHi p rows
    (List.range (hi + 1 - lo)).map (fun i =>
      let k := lo + i
      let s := sumFines rows p k
      match p with
      | .D =>
        { key := k, is_business_day := some (isBusday k),
          revenue :=
            if isBusday k = false then none
            else if s = 0 then none else some s }
      | .M => { key := k, revenue := some s, is_business_day := none })

/-- Linear month index of a day count. -/
def monthOfDay (c : Nat) : Nat :=
  let d := civilFromDays c
  d.year * 12 + (d.month - 1)

/-- The filter of `aggregate_sweep_days` (src/prepare.py:231):
`(is_business_day == True) & (revenue > 69532)`; a NaN revenue compares
as False. -/
def qualifies (b : RevBucket) : Bool :=
  b.is_business_day == some true &&
    (match b.revenue with
     | some r => decide (69532 < r)
     | none => false)

/-- Smallest month index among the qualifying buckets (start of the
reindexed monthly range). -/
def monthLo : List RevBucket → Nat
  | [] => 0
  | q :: qs =>
    qs.foldl (fun acc b => min acc (monthOfDay b.key))
      (monthOfDay q.key)

/-- Largest month index among the qualifying buckets (end of the
reindexed monthly range). -/
def monthHi : List RevBucket → Nat
  | [] => 0
  | q :: qs =>
    qs.foldl (fun acc b => max acc (monthOfDay b.key))
      (monthOfDay q.key)

/-- `aggregate_sweep_days` (src/prepare.py:217-240): keep the daily
buckets that are business days with revenue above the threshold, count
them per (year, month), and reindex to the complete month range
(months without qualifying days get count 0, the empty sum of
`resample('M').sum()`).  A month is represented by its linear index;
pandas labels it with its month-end date. -/
def aggregate_sweep_days (buckets : List RevBucket) :
    List (Nat × Nat) :=
  let qual := buckets.filter qualifies
  match qual with
  | [] => []
  | _ :: _ =>
    (List.range (monthHi qual + 1 - monthLo qual)).map (fun i =>
      (monthLo qual + i,
       (qual.filter
         (fun b => monthOfDay b.key == monthLo qual + i)).length))

/-! ## Concrete fixtures

Rows and frames used to instantiate the theorems on concrete inputs.
The frames carry all 22 raw columns, so that the modelled
`drop(columns=...)` call (which would raise a `KeyError` on a frame
missing one of them) is exercised on well-formed input. -/

/-- The raw column names, normalised. -/
def allCols : List String :=
  ["ticket_number", "issue_date", "issue_time", "meter_id",
   "marked_time", "rp_state_plate", "plate_expiry_date", "vin", "make",
   "body_style", "color", "location", "route", "agency",
   "violation_code", "violation_description", "fine_amount",
   "agency_description", "color_description", "body_style_description",
   "latitude", "longitude"]

/-- A complete raw frame row (aligned with `allCols`) whose `vin` cell
is the given string. -/
def frameRow (vin : String) : List (Option String) :=
  [some "4272349605", some "2019-07-01", some "930", some "m1",
   some "mt", some "CA", some "202112", some vin, some "TOYT",
   some "PA", some "GY", some "100 MAIN ST", some "R1", some "54",
   some "80.69A+", some "STREET CLEAN", some "73",
   some "DOT", some "GRAY", some "PASSENGER",
   some "6439997.9", some "1802686.4"]

/-- A citation row with every raw column present and the given issue
time and date. -/
def exRaw (t : Nat) (d : DateYMD) : RawRow :=
  ⟨some d, some t, some "100 MAIN ST", some "R1", some "54",
   some "STREET CLEAN", some 73, some 6439000, some 1802000,
   some "1HGBH41JXMN", some "CA", some "202112", some "TOYT",
   some "PA", some "GY", some "1037", some "GRAY", some "PASSENGER",
   some "DOT", some "m1", some "4272349605", some "80.69A+"⟩

/-- The kept row that `drop_features` extracts from `exRaw t d`. -/
def exKept (t : Nat) (d : DateYMD) : KeptRow :=
  ⟨d, t, "100 MAIN ST", "R1", "54", "STREET CLEAN", 73, 6439000,
   1802000⟩

/-- A stand-in for the pyproj transform used to run the pipeline on
concrete inputs (the transform is an external collaborator, so any
function of the right shape exercises the surrounding code). -/
def exTransform : Rat → Rat → Rat × Rat :=
  fun la lo => (lo, la)

/-- A prepared row on the given date (time 09:30) with the given fine
amount, as the resampling fixtures need it. -/
def exPrep (d : DateYMD) (fa : Rat) : PreparedRow :=
  ⟨d, ⟨9, 30⟩, "100 MAIN ST", "R1", "54", "STREET CLEAN", fa, 34,
   -118, d.year, d.month, d.day, dayName (weekday (dateKey d)), 9, 30⟩

/-- The time column of a converted row, as `cast_time` computes it
(used to phrase the theorems about `cast_time`). -/
def convRow (r : KeptRow) : TimedRow :=
  withTime r ⟨(parseHM r.issue_time).1, (parseHM r.issue_time).2⟩

/-- Three daily buckets on business days of three consecutive months,
with revenues around the 69532 threshold. -/
def exBuckets : List RevBucket :=
  [⟨100, some 70000, some true⟩,
   ⟨131, some 69000, some true⟩,
   ⟨160, some 80000, some true⟩]

/-- The artifact the pipeline derives from the one-row raw table
`[exRaw 930 (2021-03-15)]` under `exTransform`. -/
def exArt : List PreparedRow :=
  [⟨⟨2021, 3, 15⟩, ⟨9, 30⟩, "100 MAIN ST", "R1", "54", "STREET CLEAN",
    73, 6439000, 1802000, 2021, 3, 15, "Monday", 9, 30⟩]

/-- The artifact the pipeline derives from a two-row raw table given in
reverse date order (2021-03-15 before 2021-03-14) under
`exTransform`. -/
def exArt2 : List PreparedRow :=
  [⟨⟨2021, 3, 14⟩, ⟨14, 30⟩, "100 MAIN ST", "R1", "54", "STREET CLEAN",
    73, 6439000, 1802000, 2021, 3, 14, "Sunday", 14, 30⟩,
   ⟨⟨2021, 3, 15⟩, ⟨9, 30⟩, "100 MAIN ST", "R1", "54", "STREET CLEAN",
    73, 6439000, 1802000, 2021, 3, 15, "Monday", 9, 30⟩]

/-! ## Helper lemmas -/

theorem nodup_dedupFirst {α : Type} [DecidableEq α] (l : List α) :
    (dedupFirst l).Nodup := by
  induction l with
  | nil => simp [dedupFirst]
  | cons x xs ih =>
    simp only [dedupFirst, List.nodup_cons]
    refine ⟨fun hx => ?_, ih.filter _⟩
    have := List.of_mem_filter hx
    simp at this

theorem mem_dedupFirst {α : Type} [DecidableEq α] (l : List α)
    (a : α) : a ∈ dedupFirst l ↔ a ∈ l := by
  induction l with
  | nil => simp [dedupFirst]
  | cons x xs ih =>
    simp only [dedupFirst, List.mem_cons]
    constructor
    · rintro (rfl | h)
      · exact Or.inl rfl
      · exact Or.inr (ih.1 (List.mem_of_mem_filter h))
    · rintro (rfl | h)
      · exact Or.inl rfl
      · by_cases hax : a = x
        · exact Or.inl hax
        · exact Or.inr (List.mem_filter.2 ⟨ih.2 h, by simpa using hax⟩)

/-! ## C3 — Record Cleaner output invariants -/

/-- C3, counterexample: the claim "no two rows of the cleaned table are
exactly equal" fails.  `drop_duplicates` runs before the columns are
dropped, so two raw rows that differ only in a dropped column (`vin`
here) survive deduplication and become equal rows of the output. -/
theorem drop_features_duplicates_cex :
    ¬ (drop_features_frame
        ⟨allCols, [frameRow "1HGBH41JXMN", frameRow "2HGBH41JXMN"]⟩
      ).rows.Nodup := by
  decide

/-- C3, amended: every row of the table returned by `drop_features` is
free of missing values, and duplicates are removed only at the level of
full raw rows, before the column drop — the returned rows are the
null-free projections of a duplicate-free list of raw rows (rows that
become equal only after the 13 columns are dropped may remain). -/
theorem drop_features_clean (data : Frame) :
    (∀ row ∈ (drop_features_frame data).rows, rowComplete row = true) ∧
    (dedupFirst data.rows).Nodup ∧
    (drop_features_frame data).rows =
      ((dedupFirst data.rows).map (projRow data.cols)).filter
        rowComplete := by
  refine ⟨?_, nodup_dedupFirst _, rfl⟩
  intro row hrow
  exact List.of_mem_filter hrow

/-- C3, witness for `drop_features_clean` on a concrete frame. -/
theorem drop_features_clean_witness :
    rowComplete (projRow allCols (frameRow "1HGBH41JXMN")) = true ∧
    (dedupFirst [frameRow "1HGBH41JXMN"]).Nodup := by
  constructor
  · exact (drop_features_clean ⟨allCols, [frameRow "1HGBH41JXMN"]⟩).1 _
      (by decide)
  · exact (drop_features_clean ⟨allCols, [frameRow "1HGBH41JXMN"]⟩).2.1

/-! ## C9 — Record Cleaner frame effect -/

/-- C9, counterexample: the claim that `drop_features` never mutates
the caller's table fails — after the call the caller's frame has lost
the 13 dropped columns (and any duplicate rows), because
`drop_duplicates` and `drop` are invoked with `inplace=True`. -/
theorem drop_features_mutates_cex :
    (drop_features_run ⟨allCols, [frameRow "1HGBH41JXMN"]⟩).1 ≠
      ⟨allCols, [frameRow "1HGBH41JXMN"]⟩ := by
  decide

/-- C9, amended: `drop_features` does mutate the caller's table: after
the call the caller's frame holds the deduplicated rows projected onto
the retained columns, so whenever the table has a `vin` column the
caller's table is observably changed.  Only the final null-row filter
is non-mutating. -/
theorem drop_features_mutation (data : Frame)
    (h : "vin" ∈ data.cols) :
    (drop_features_run data).1 ≠ data ∧
    (drop_features_run data).1.cols = data.cols.filter keepCol ∧
    (drop_features_run data).1.rows =
      (dedupFirst data.rows).map (projRow data.cols) := by
  refine ⟨?_, rfl, rfl⟩
  intro heq
  have hcols : data.cols.filter keepCol = data.cols :=
    congrArg Frame.cols heq
  have hvin : "vin" ∈ data.cols.filter keepCol := by
    rw [hcols]
    exact h
  have := List.of_mem_filter hvin
  simp [keepCol, features_to_drop] at this

/-- C9, witness for `drop_features_mutation` on a concrete frame. -/
theorem drop_features_mutation_witness :
    "vin" ∈ allCols ∧
    (drop_features_run ⟨allCols, [frameRow "X"]⟩).1 ≠
      ⟨allCols, [frameRow "X"]⟩ :=
  ⟨by decide,
   (drop_features_mutation ⟨allCols, [frameRow "X"]⟩ (by decide)).1⟩

/-! ## Decimal-length characterisations -/

theorem decLenAux_lt_ten (f n : Nat) (h : n < 10) : decLenAux f n = 1 := by
  cases f with
  | zero => rfl
  | succ f => simp [decLenAux, h]

theorem decLenAux_ge_one (f n : Nat) : 1 ≤ decLenAux f n := by
  cases f with
  | zero => exact Nat.le_refl 1
  | succ f =>
    unfold decLenAux
    by_cases h : n < 10
    · rw [if_pos h]
    · rw [if_neg h]
      omega

theorem decLenAux_two {f n : Nat} (h1 : 10 ≤ n) (h2 : n ≤ 99)
    (hf : 1 ≤ f) : decLenAux f n = 2 := by
  cases f with
  | zero => omega
  | succ f =>
    unfold decLenAux
    rw [if_neg (by omega), decLenAux_lt_ten f (n / 10) (by omega)]

theorem decLenAux_three {f n : Nat} (h1 : 100 ≤ n) (h2 : n ≤ 999)
    (hf : 2 ≤ f) : decLenAux f n = 3 := by
  cases f with
  | zero => omega
  | succ f =>
    unfold decLenAux
    rw [if_neg (by omega),
      decLenAux_two (f := f) (by omega) (by omega) (by omega)]

theorem decLenAux_four {f n : Nat} (h1 : 1000 ≤ n) (h2 : n ≤ 9999)
    (hf : 3 ≤ f) : decLenAux f n = 4 := by
  cases f with
  | zero => omega
  | succ f =>
    unfold decLenAux
    rw [if_neg (by omega),
      decLenAux_three (f := f) (by omega) (by omega) (by omega)]

theorem decLenAux_min_two {f n : Nat} (h1 : 10 ≤ n) (hf : n ≤ f) :
    2 ≤ decLenAux f n := by
  cases f with
  | zero => omega
  | succ f =>
    unfold decLenAux
    rw [if_neg (by omega)]
    have := decLenAux_ge_one f (n / 10)
    omega

theorem decLenAux_min_three {f n : Nat} (h1 : 100 ≤ n) (hf : n ≤ f) :
    3 ≤ decLenAux f n := by
  cases f with
  | zero => omega
  | succ f =>
    unfold decLenAux
    rw [if_neg (by omega)]
    have := decLenAux_min_two (f := f) (n := n / 10) (by omega) (by omega)
    omega

theorem decLenAux_min_four {f n : Nat} (h1 : 1000 ≤ n) (hf : n ≤ f) :
    4 ≤ decLenAux f n := by
  cases f with
  | zero => omega
  | succ f =>
    unfold decLenAux
    rw [if_neg (by omega)]
    have := decLenAux_min_three (f := f) (n := n / 10) (by omega) (by omega)
    omega

theorem decLen_eq_four {n : Nat} (h1 : 1000 ≤ n) (h2 : n ≤ 9999) :
    decLen n = 4 :=
  decLenAux_four h1 h2 (by omega)

theorem decLen_eq_three {n : Nat} (h1 : 100 ≤ n) (h2 : n ≤ 999) :
    decLen n = 3 :=
  decLenAux_three h1 h2 (by omega)

theorem decLen_le_two {n : Nat} (h : n ≤ 99) : decLen n ≤ 2 := by
  by_cases h10 : n < 10
  · rw [decLen, decLenAux_lt_ten n n h10]
    omega
  · rw [decLen, decLenAux_two (by omega) (by omega) (by omega)]

theorem decLen_ge_five {n : Nat} (h : 10000 ≤ n) : 5 ≤ decLen n := by
  unfold decLen
  cases n with
  | zero => omega
  | succ f =>
    unfold decLenAux
    rw [if_neg (by omega)]
    have := decLenAux_min_four (f := f) (n := (f + 1) / 10)
      (by omega) (by omega)
    omega

theorem parseHM_four {n : Nat} (h1 : 1000 ≤ n) (h2 : n ≤ 9999) :
    parseHM n = (n / 100, n % 100) := by
  have h4 := decLen_eq_four h1 h2
  unfold parseHM decTake decDrop
  rw [h4]
  norm_num

theorem parseHM_three {n : Nat} (h1 : 100 ≤ n) (h2 : n ≤ 999) :
    parseHM n = (n / 100, n % 100) := by
  have h3 := decLen_eq_three h1 h2
  unfold parseHM decTake decDrop
  rw [h3]
  norm_num

theorem parseHM_other {n : Nat} (h3 : decLen n ≠ 3) (h4 : decLen n ≠ 4) :
    parseHM n = (0, 0) := by
  unfold parseHM
  rw [if_neg h4, if_neg h3]

/-! ## `cast_time` characterisation -/

theorem zip_map_self {α β : Type} (g : α → β) (l : List α) :
    l.zip (l.map g) = l.map (fun a => (a, g a)) := by
  have h := List.zip_map' (fun a : α => a) g l
  simpa using h

theorem castList_ok_iff (vs : List Nat) (ts : List TimeHM) :
    castList vs = Except.ok ts ↔
      ((∀ v ∈ vs, (parseHM v).1 ≤ 23 ∧ (parseHM v).2 ≤ 59) ∧
        ts = vs.map (fun v => ⟨(parseHM v).1, (parseHM v).2⟩)) := by
  induction vs generalizing ts with
  | nil =>
    constructor
    · intro h
      simp only [castList] at h
      have : ([] : List TimeHM) = ts := by simpa using h
      simp [this.symm]
    · rintro ⟨-, rfl⟩
      simp [castList]
  | cons n ns ih =>
    by_cases h : (parseHM n).1 ≤ 23 ∧ (parseHM n).2 ≤ 59
    · constructor
      · intro hc
        unfold castList mkTime at hc
        rw [if_pos h] at hc
        cases hcn : castList ns with
        | error e =>
          rw [hcn] at hc
          exact absurd hc (by simp)
        | ok ts2 =>
          rw [hcn] at hc
          have hts : (⟨(parseHM n).1, (parseHM n).2⟩ : TimeHM) :: ts2 = ts := by
            simpa using hc
          obtain ⟨hvalid, hmap⟩ := (ih ts2).1 hcn
          constructor
          · intro v hv
            rcases List.mem_cons.1 hv with rfl | hv2
            · exact h
            · exact hvalid v hv2
          · rw [← hts, hmap]
            simp
      · rintro ⟨hvalid, rfl⟩
        unfold castList mkTime
        rw [if_pos h]
        have hcn : castList ns =
            Except.ok (ns.map fun v => (⟨(parseHM v).1, (parseHM v).2⟩ : TimeHM)) :=
          (ih _).2 ⟨fun v hv => hvalid v (List.mem_cons_of_mem _ hv), rfl⟩
        rw [hcn]
        simp
    · constructor
      · intro hc
        unfold castList mkTime at hc
        rw [if_neg h] at hc
        exact absurd hc (by simp)
      · rintro ⟨hvalid, -⟩
        exact absurd (hvalid n (List.mem_cons_self n ns)) h

theorem cast_time_ok_iff (rows : List KeptRow) (out : List TimedRow) :
    cast_time rows = Except.ok out ↔
      ((∀ r ∈ rows,
          (parseHM r.issue_time).1 ≤ 23 ∧ (parseHM r.issue_time).2 ≤ 59) ∧
        out = (rows.map convRow).filter
          (fun r => decide (r.issue_time ≠ (⟨0, 0⟩ : TimeHM)))) := by
  unfold cast_time
  constructor
  · intro hc
    cases hcl : castList (rows.map fun r => r.issue_time) with
    | error e =>
      rw [hcl] at hc
      exact absurd hc (by simp)
    | ok ts =>
      rw [hcl] at hc
      obtain ⟨hvalid, hmap⟩ := (castList_ok_iff _ _).1 hcl
      have hout :
          ((rows.zip ts).map (fun p => withTime p.1 p.2)).filter
            (fun r => decide (r.issue_time ≠ (⟨0, 0⟩ : TimeHM))) = out := by
        simpa using hc
      subst hmap
      refine ⟨fun r hr => hvalid _ (List.mem_map_of_mem _ hr), ?_⟩
      rw [← hout, List.map_map, zip_map_self, List.map_map]
      rfl
  · rintro ⟨hvalid, rfl⟩
    have hcl : castList (rows.map fun r => r.issue_time) =
        Except.ok (rows.map fun r =>
          (⟨(parseHM r.issue_time).1, (parseHM r.issue_time).2⟩ :
            TimeHM)) := by
      apply (castList_ok_iff _ _).2
      refine ⟨fun v hv => ?_, by rw [List.map_map]; rfl⟩
      obtain ⟨r, hr, rfl⟩ := List.mem_map.1 hv
      exact hvalid r hr
    rw [hcl]
    show Except.ok (((rows.zip (rows.map fun r =>
        (⟨(parseHM r.issue_time).1, (parseHM r.issue_time).2⟩ :
          TimeHM))).map (fun p => withTime p.1 p.2)).filter
        (fun r => decide (r.issue_time ≠ (⟨0, 0⟩ : TimeHM)))) =
      Except.ok ((rows.map convRow).filter
        (fun r => decide (r.issue_time ≠ (⟨0, 0⟩ : TimeHM))))
    rw [zip_map_self, List.map_map]
    rfl

/-! ## C1 — Temporal Normalizer digit-count parsing -/

/-- C1: the issue-time parse follows the digit count of the stringified
value — four digits split as first-two/last-two (arithmetically
`n / 100` and `n % 100`), three digits as first/last-two (also `n / 100`
and `n % 100`), any other length gives the 00:00 sentinel; `1430` parses
to 14:30, `930` to 09:30, `0` to the sentinel; and no row whose
normalized time equals the 00:00:00 sentinel survives `cast_time`. -/
theorem cast_time_digit_rules :
    (∀ n, 1000 ≤ n → n ≤ 9999 → parseHM n = (n / 100, n % 100)) ∧
    (∀ n, 100 ≤ n → n ≤ 999 → parseHM n = (n / 100, n % 100)) ∧
    (∀ n, decLen n ≠ 3 → decLen n ≠ 4 → parseHM n = (0, 0)) ∧
    parseHM 1430 = (14, 30) ∧ parseHM 930 = (9, 30) ∧
    parseHM 0 = (0, 0) ∧
    (∀ rows out, cast_time rows = Except.ok out →
      ∀ r ∈ out, r.issue_time ≠ (⟨0, 0⟩ : TimeHM)) := by
  refine ⟨fun n h1 h2 => parseHM_four h1 h2,
    fun n h1 h2 => parseHM_three h1 h2,
    fun n h3 h4 => parseHM_other h3 h4,
    by decide, by decide, by decide, ?_⟩
  intro rows out hc r hr
  obtain ⟨-, rfl⟩ := (cast_time_ok_iff rows out).1 hc
  have hd := List.of_mem_filter hr
  simpa using hd

/-- C1, witness: the rules applied at 1430 and at a concrete one-row
table whose surviving row has a non-sentinel time. -/
theorem cast_time_digit_rules_witness :
    (1000 ≤ 1430 ∧ 1430 ≤ 9999 ∧
      parseHM 1430 = (1430 / 100, 1430 % 100)) ∧
    (cast_time [exKept 930 ⟨2021, 3, 15⟩] =
        Except.ok [convRow (exKept 930 ⟨2021, 3, 15⟩)] ∧
      (convRow (exKept 930 ⟨2021, 3, 15⟩)).issue_time ≠
        (⟨0, 0⟩ : TimeHM)) := by
  have hok : cast_time [exKept 930 ⟨2021, 3, 15⟩] =
      Except.ok [convRow (exKept 930 ⟨2021, 3, 15⟩)] := by rfl
  refine ⟨⟨by decide, by decide,
    cast_time_digit_rules.1 1430 (by decide) (by decide)⟩, hok, ?_⟩
  exact cast_time_digit_rules.2.2.2.2.2.2 _ _ hok _ (by simp)

/-! ## C10 — lengths other than 3 or 4 are sentinels -/

/-- C10: every raw value whose decimal length is not 3 or 4 — in
particular any value of five or more digits — parses to the 00:00
sentinel, and such rows are dropped: the surviving row count equals the
count of rows with a non-sentinel parse. -/
theorem cast_time_other_lengths_sentinel :
    (∀ n, decLen n ≠ 3 → decLen n ≠ 4 → parseHM n = (0, 0)) ∧
    (∀ n, 10000 ≤ n → parseHM n = (0, 0)) ∧
    (∀ rows out, cast_time rows = Except.ok out →
      out.length = (rows.filter
        (fun r => decide (parseHM r.issue_time ≠ (0, 0)))).length) ∧
    cast_time [exKept 12345 ⟨2021, 3, 16⟩, exKept 930 ⟨2021, 3, 16⟩] =
      Except.ok [convRow (exKept 930 ⟨2021, 3, 16⟩)] := by
  refine ⟨fun n h3 h4 => parseHM_other h3 h4, ?_, ?_, by rfl⟩
  · intro n h
    have h5 := decLen_ge_five h
    exact parseHM_other (by omega) (by omega)
  · intro rows out hc
    obtain ⟨-, rfl⟩ := (cast_time_ok_iff rows out).1 hc
    rw [List.filter_map, List.length_map]
    congr 1
    apply List.filter_congr
    intro r _
    apply decide_eq_decide.mpr
    simp [convRow, withTime, TimeHM.mk.injEq, Prod.ext_iff]

/-- C10, witness: a five-digit value is a sentinel and its row is
dropped while the rest of the batch survives. -/
theorem cast_time_other_lengths_sentinel_witness :
    (10000 ≤ 12345 ∧ parseHM 12345 = (0, 0)) ∧
    (cast_time [exKept 12345 ⟨2021, 3, 16⟩, exKept 930 ⟨2021, 3, 16⟩] =
        Except.ok [convRow (exKept 930 ⟨2021, 3, 16⟩)] ∧
      ([convRow (exKept 930 ⟨2021, 3, 16⟩)] : List TimedRow).length =
        ([exKept 12345 ⟨2021, 3, 16⟩, exKept 930 ⟨2021, 3, 16⟩].filter
          (fun r => decide (parseHM r.issue_time ≠ (0, 0)))).length) := by
  have hok : cast_time
      [exKept 12345 ⟨2021, 3, 16⟩, exKept 930 ⟨2021, 3, 16⟩] =
      Except.ok [convRow (exKept 930 ⟨2021, 3, 16⟩)] := by rfl
  refine ⟨⟨by decide,
    cast_time_other_lengths_sentinel.2.1 12345 (by decide)⟩, hok, ?_⟩
  exact cast_time_other_lengths_sentinel.2.2.1 _ _ hok

/-! ## C8 — row-level error recovery -/

/-- C8, counterexample: the claim that an out-of-range hour/minute
drops only the offending row and the batch continues fails — `975`
normalizes to minute 75, `datetime.time` raises `ValueError`, and with
no try/except in `cast_time` the whole call errors instead of returning
the surviving `930` row. -/
theorem cast_time_batch_abort_cex :
    cast_time [exKept 930 ⟨2021, 3, 15⟩, exKept 975 ⟨2021, 3, 15⟩] =
      Except.error "ValueError" := by
  rfl

/-- C8, amended: row-level errors are not recovered locally.  A row
whose issue time normalizes to hour > 23 or minute > 59 makes the whole
`cast_time` batch fail (no ok result, so no rows survive), and rows are
dropped by `convert_coordinates` only through the post-transform
99999.0 sentinel filter, not by catching per-row transform errors. -/
theorem row_errors_not_recovered :
    (∀ rows (r : KeptRow), r ∈ rows →
      ¬((parseHM r.issue_time).1 ≤ 23 ∧ (parseHM r.issue_time).2 ≤ 59) →
      ∀ out, cast_time rows ≠ Except.ok out) ∧
    (∀ f rows (r : TimedRow), r ∈ convert_coordinates f rows →
      r.longitude ≠ 99999 ∧ r.latitude ≠ 99999) := by
  constructor
  · intro rows r hr hbad out hc
    obtain ⟨hv, -⟩ := (cast_time_ok_iff rows out).1 hc
    exact hbad (hv r hr)
  · intro f rows r hr
    have hd := List.of_mem_filter hr
    simpa using hd

/-- C8, witness: the amended behavior at a concrete batch with one
invalid time, and a concrete converted row kept by the sentinel
filter. -/
theorem row_errors_not_recovered_witness :
    cast_time [exKept 930 ⟨2021, 3, 15⟩, exKept 975 ⟨2021, 3, 15⟩] ≠
      Except.ok [] ∧
    ((⟨⟨2021, 3, 15⟩, ⟨9, 30⟩, "100 MAIN ST", "R1", "54",
        "STREET CLEAN", 73, 6439000, 1802000⟩ : TimedRow).longitude ≠
        99999 ∧
      (⟨⟨2021, 3, 15⟩, ⟨9, 30⟩, "100 MAIN ST", "R1", "54",
        "STREET CLEAN", 73, 6439000, 1802000⟩ : TimedRow).latitude ≠
        99999) := by
  constructor
  · exact row_errors_not_recovered.1 _ (exKept 975 ⟨2021, 3, 15⟩)
      (by decide) (by decide) []
  · exact row_errors_not_recovered.2 exTransform
      [convRow (exKept 930 ⟨2021, 3, 15⟩)] _ (by decide)

/-! ## C2 — Citation Preparer idempotence via the canonical artifact -/

/-- C2: if the canonical artifact exists, the preparation transition is
skipped and the persisted artifact is returned verbatim with the cache
untouched (independently of the raw input, so no re-derivation occurs);
consequently, after any successful run the artifact is persisted and a
second run over the same raw input returns the identical artifact and
leaves the cache unchanged. -/
theorem prep_cache_idempotent :
    (∀ f a data, prep_sweep_data f ⟨some a⟩ data =
      Except.ok (⟨some a⟩, a)) ∧
    (∀ f s data s1 a1,
      prep_sweep_data f s data = Except.ok (s1, a1) →
      s1.content = some a1 ∧
      prep_sweep_data f s1 data = Except.ok (s1, a1)) := by
  constructor
  · intro f a data
    rfl
  · intro f s data s1 a1 hc
    cases hs : s.content with
    | some a =>
      unfold prep_sweep_data at hc
      rw [hs] at hc
      simp only [Except.ok.injEq, Prod.mk.injEq] at hc
      obtain ⟨rfl, rfl⟩ := hc
      refine ⟨hs, ?_⟩
      unfold prep_sweep_data
      rw [hs]
    | none =>
      unfold prep_sweep_data at hc
      rw [hs] at hc
      cases hd : prep_derive f data with
      | error e =>
        rw [hd] at hc
        exact absurd hc (by simp)
      | ok d =>
        rw [hd] at hc
        simp only [Except.ok.injEq, Prod.mk.injEq] at hc
        obtain ⟨rfl, rfl⟩ := hc
        exact ⟨rfl, rfl⟩

/-- C2, witness: a concrete fresh run persists the artifact and the
second run returns it unchanged. -/
theorem prep_cache_idempotent_witness :
    prep_sweep_data exTransform ⟨none⟩ [exRaw 930 ⟨2021, 3, 15⟩] =
      Except.ok (⟨some exArt⟩, exArt) ∧
    prep_sweep_data exTransform ⟨some exArt⟩ [exRaw 930 ⟨2021, 3, 15⟩] =
      Except.ok (⟨some exArt⟩, exArt) := by
  have h1 : prep_sweep_data exTransform ⟨none⟩ [exRaw 930 ⟨2021, 3, 15⟩] =
      Except.ok (⟨some exArt⟩, exArt) := by rfl
  exact ⟨h1, (prep_cache_idempotent.2 exTransform ⟨none⟩
    [exRaw 930 ⟨2021, 3, 15⟩] ⟨some exArt⟩ exArt h1).2⟩

/-! ## C4 — fresh preparation output is sorted and time-windowed -/

/-- C4: a successful UNPREPARED→PREPARED run (empty cache) produces a
table sorted ascending by (issue date, issue time) in which every row's
time of day lies in the inclusive default window
07:30:00 ≤ t ≤ 15:30:00. -/
theorem prep_sorted_window :
    ∀ f data s1 out,
      prep_sweep_data f ⟨none⟩ data = Except.ok (s1, out) →
      List.Sorted rowLe out ∧
      ∀ r ∈ out, timeLe min_time r.issue_time ∧
        timeLe r.issue_time max_time := by
  intro f data s1 out hc
  unfold prep_sweep_data prep_derive at hc
  cases hct : cast_time (drop_features data) with
  | error e =>
    rw [hct] at hc
    exact absurd hc (by simp)
  | ok d2 =>
    rw [hct] at hc
    simp only [Except.ok.injEq, Prod.mk.injEq] at hc
    obtain ⟨-, rfl⟩ := hc
    constructor
    · exact List.Pairwise.sublist (List.filter_sublist _)
        (List.sorted_insertionSort rowLe
          (add_features (convert_coordinates f d2)))
    · intro r hr
      have hb := List.of_mem_filter hr
      rw [Bool.and_eq_true] at hb
      exact ⟨of_decide_eq_true hb.1, of_decide_eq_true hb.2⟩

/-- C4, witness: a concrete fresh run over rows given in reverse date
order yields the sorted artifact `exArt2`, every row inside the
window. -/
theorem prep_sorted_window_witness :
    prep_sweep_data exTransform ⟨none⟩
      [exRaw 930 ⟨2021, 3, 15⟩, exRaw 1430 ⟨2021, 3, 14⟩] =
      Except.ok (⟨some exArt2⟩, exArt2) ∧
    List.Sorted rowLe exArt2 ∧
    ∀ r ∈ exArt2, timeLe min_time r.issue_time ∧
      timeLe r.issue_time max_time := by
  have h1 : prep_sweep_data exTransform ⟨none⟩
      [exRaw 930 ⟨2021, 3, 15⟩, exRaw 1430 ⟨2021, 3, 14⟩] =
      Except.ok (⟨some exArt2⟩, exArt2) := by rfl
  have h2 := prep_sorted_window exTransform
    [exRaw 930 ⟨2021, 3, 15⟩, exRaw 1430 ⟨2021, 3, 14⟩]
    ⟨some exArt2⟩ exArt2 h1
  exact ⟨h1, h2.1, h2.2⟩

/-! ## C5 — daily revenue buckets and the "no data" policy -/

/-- C5: in the daily Periodic Revenue Series every bucket carries the
Monday-Friday business-day flag of its date; a bucket on a non-business
day has revenue forced to "no data" (`none`) regardless of its input
sum, and a bucket whose fine amounts sum to exactly zero also has
revenue "no data" rather than zero. -/
theorem resample_daily_no_data :
    ∀ rows b, b ∈ resample_period rows Period.D →
      b.is_business_day = some (isBusday b.key) ∧
      (isBusday b.key = false → b.revenue = none) ∧
      (sumFines rows Period.D b.key = 0 → b.revenue = none) := by
  intro rows b hb
  cases rows with
  | nil => simp [resample_period] at hb
  | cons r rs =>
    simp only [resample_period, List.mem_map, List.mem_range] at hb
    obtain ⟨i, hir, rfl⟩ := hb
    refine ⟨rfl, fun hbus => ?_, fun hzero => ?_⟩
    · show (if isBusday (keyLo Period.D (r :: rs) + i) = false then none
        else if sumFines (r :: rs) Period.D
            (keyLo Period.D (r :: rs) + i) = 0 then none
        else some (sumFines (r :: rs) Period.D
          (keyLo Period.D (r :: rs) + i))) = none
      have hbus2 : isBusday (keyLo Period.D (r :: rs) + i) = false := hbus
      rw [if_pos hbus2]
    · show (if isBusday (keyLo Period.D (r :: rs) + i) = false then none
        else if sumFines (r :: rs) Period.D
            (keyLo Period.D (r :: rs) + i) = 0 then none
        else some (sumFines (r :: rs) Period.D
          (keyLo Period.D (r :: rs) + i))) = none
      have hz2 : sumFines (r :: rs) Period.D
          (keyLo Period.D (r :: rs) + i) = 0 := hzero
      by_cases hbus3 : isBusday (keyLo Period.D (r :: rs) + i) = false
      · rw [if_pos hbus3]
      · rw [if_neg hbus3, if_pos hz2]

/-- C5, witness: over citations on Friday 2021-03-19 and Tuesday
2021-03-23, the Sunday 2021-03-21 bucket is non-business with revenue
"no data", and the Monday 2021-03-22 bucket is a business day whose
zero sum is also forced to "no data". -/
theorem resample_daily_no_data_witness :
    ((⟨daysFromCivil 2021 3 21, none, some false⟩ : RevBucket) ∈
        resample_period
          [exPrep ⟨2021, 3, 19⟩ 73, exPrep ⟨2021, 3, 23⟩ 70000]
          Period.D ∧
      isBusday (daysFromCivil 2021 3 21) = false ∧
      (⟨daysFromCivil 2021 3 21, none, some false⟩ :
        RevBucket).revenue = none) ∧
    ((⟨daysFromCivil 2021 3 22, none, some true⟩ : RevBucket) ∈
        resample_period
          [exPrep ⟨2021, 3, 19⟩ 73, exPrep ⟨2021, 3, 23⟩ 70000]
          Period.D ∧
      sumFines [exPrep ⟨2021, 3, 19⟩ 73, exPrep ⟨2021, 3, 23⟩ 70000]
        Period.D (daysFromCivil 2021 3 22) = 0 ∧
      (⟨daysFromCivil 2021 3 22, none, some true⟩ :
        RevBucket).revenue = none) := by
  have hm1 : (⟨daysFromCivil 2021 3 21, none, some false⟩ : RevBucket) ∈
      resample_period
        [exPrep ⟨2021, 3, 19⟩ 73, exPrep ⟨2021, 3, 23⟩ 70000]
        Period.D :=
    List.mem_map.2 ⟨2, List.mem_range.2 (by decide), rfl⟩
  have hm2 : (⟨daysFromCivil 2021 3 22, none, some true⟩ : RevBucket) ∈
      resample_period
        [exPrep ⟨2021, 3, 19⟩ 73, exPrep ⟨2021, 3, 23⟩ 70000]
        Period.D :=
    List.mem_map.2 ⟨3, List.mem_range.2 (by decide), rfl⟩
  refine ⟨⟨hm1, by decide, ?_⟩, ⟨hm2, by rfl, ?_⟩⟩
  · exact (resample_daily_no_data _ _ hm1).2.1 (by decide)
  · exact (resample_daily_no_data _ _ hm2).2.2 (by rfl)

/-! ## C6 — monthly recurring-schedule aggregate -/

theorem foldl_min_month (l : List RevBucket) (a : Nat) :
    l.foldl (fun acc b => min acc (monthOfDay b.key)) a ≤ a ∧
    ∀ x ∈ l, l.foldl (fun acc b => min acc (monthOfDay b.key)) a ≤
      monthOfDay x.key := by
  induction l generalizing a with
  | nil => simp
  | cons y ys ih =>
    simp only [List.foldl_cons]
    constructor
    · exact le_trans (ih (min a (monthOfDay y.key))).1
        (Nat.min_le_left _ _)
    · intro x hx
      rcases List.mem_cons.1 hx with rfl | hx2
      · exact le_trans (ih _).1 (Nat.min_le_right _ _)
      · exact (ih _).2 x hx2

theorem foldl_max_month (l : List RevBucket) (a : Nat) :
    a ≤ l.foldl (fun acc b => max acc (monthOfDay b.key)) a ∧
    ∀ x ∈ l, monthOfDay x.key ≤
      l.foldl (fun acc b => max acc (monthOfDay b.key)) a := by
  induction l generalizing a with
  | nil => simp
  | cons y ys ih =>
    simp only [List.foldl_cons]
    constructor
    · exact le_trans (Nat.le_max_left _ _)
        (ih (max a (monthOfDay y.key))).1
    · intro x hx
      rcases List.mem_cons.1 hx with rfl | hx2
      · exact le_trans (Nat.le_max_right _ _) (ih _).1
      · exact (ih _).2 x hx2

theorem monthLo_le {qual : List RevBucket} {b : RevBucket}
    (hb : b ∈ qual) : monthLo qual ≤ monthOfDay b.key := by
  cases qual with
  | nil => simp at hb
  | cons q qs =>
    unfold monthLo
    rcases List.mem_cons.1 hb with rfl | hb2
    · exact (foldl_min_month qs (monthOfDay b.key)).1
    · exact (foldl_min_month qs (monthOfDay q.key)).2 b hb2

theorem le_monthHi {qual : List RevBucket} {b : RevBucket}
    (hb : b ∈ qual) : monthOfDay b.key ≤ monthHi qual := by
  cases qual with
  | nil => simp at hb
  | cons q qs =>
    unfold monthHi
    rcases List.mem_cons.1 hb with rfl | hb2
    · exact (foldl_max_month qs (monthOfDay b.key)).1
    · exact (foldl_max_month qs (monthOfDay q.key)).2 b hb2

theorem mem_month_range (buckets : List RevBucket) (q0 : RevBucket)
    (qs : List RevBucket)
    (hq : buckets.filter qualifies = q0 :: qs) (t : Nat)
    (htn : t < monthHi (q0 :: qs) + 1 - monthLo (q0 :: qs)) :
    (monthLo (q0 :: qs) + t,
     ((q0 :: qs).filter (fun b =>
       monthOfDay b.key == monthLo (q0 :: qs) + t)).length) ∈
      aggregate_sweep_days buckets := by
  unfold aggregate_sweep_days
  rw [hq]
  exact List.mem_map.2 ⟨t, List.mem_range.2 htn, rfl⟩

/-- C6: every month entry of the Monthly Recurring-Schedule Aggregate
counts exactly the daily buckets that are business days with revenue
strictly above 69532 and fall in that month; every qualifying bucket's
month is present; and the month index is gap-free — between any two
output months every intermediate month also has an entry (with count 0
when no day qualifies, by the reindexing to a complete monthly
range). -/
theorem aggregate_month_counts (buckets : List RevBucket) :
    (∀ p ∈ aggregate_sweep_days buckets,
      p.2 = (buckets.filter (fun b => qualifies b &&
        (monthOfDay b.key == p.1))).length) ∧
    (∀ b ∈ buckets, qualifies b = true →
      ∃ c, (monthOfDay b.key, c) ∈ aggregate_sweep_days buckets) ∧
    (∀ pa qa, pa ∈ aggregate_sweep_days buckets →
      qa ∈ aggregate_sweep_days buckets →
      ∀ k, pa.1 ≤ k → k ≤ qa.1 →
      ∃ c, (k, c) ∈ aggregate_sweep_days buckets) := by
  cases hq : buckets.filter qualifies with
  | nil =>
    have hagg : aggregate_sweep_days buckets = [] := by
      unfold aggregate_sweep_days
      rw [hq]
    refine ⟨?_, ?_, ?_⟩
    · intro p hp
      rw [hagg] at hp
      simp at hp
    · intro b hb hqb
      have hbq : b ∈ buckets.filter qualifies :=
        List.mem_filter.2 ⟨hb, hqb⟩
      rw [hq] at hbq
      simp at hbq
    · intro pa qa hp hq2 k h1 h2
      rw [hagg] at hp
      simp at hp
  | cons q0 qs =>
    have hagg : aggregate_sweep_days buckets =
        (List.range (monthHi (q0 :: qs) + 1 - monthLo (q0 :: qs))).map
          (fun i => (monthLo (q0 :: qs) + i,
            ((q0 :: qs).filter (fun b =>
              monthOfDay b.key == monthLo (q0 :: qs) + i)).length)) := by
      unfold aggregate_sweep_days
      rw [hq]
    refine ⟨?_, ?_, ?_⟩
    · intro p hp
      rw [hagg] at hp
      obtain ⟨i, hir, rfl⟩ := List.mem_map.1 hp
      show ((q0 :: qs).filter (fun b =>
          monthOfDay b.key == monthLo (q0 :: qs) + i)).length =
        (buckets.filter (fun b => qualifies b &&
          (monthOfDay b.key == monthLo (q0 :: qs) + i))).length
      rw [← hq, List.filter_filter]
      congr 1
      apply List.filter_congr
      intro b _
      exact Bool.and_comm _ _
    · intro b hb hqb
      have hbq : b ∈ buckets.filter qualifies :=
        List.mem_filter.2 ⟨hb, hqb⟩
      rw [hq] at hbq
      have hlo := monthLo_le hbq
      have hhi := le_monthHi hbq
      obtain ⟨t, ht⟩ : ∃ t, monthOfDay b.key = monthLo (q0 :: qs) + t :=
        ⟨monthOfDay b.key - monthLo (q0 :: qs), by omega⟩
      rw [ht]
      exact ⟨_, mem_month_range buckets q0 qs hq t (by omega)⟩
    · intro pa qa hp hq2 k h1 h2
      rw [hagg] at hp hq2
      obtain ⟨i, hir, rfl⟩ := List.mem_map.1 hp
      obtain ⟨j, hjr, rfl⟩ := List.mem_map.1 hq2
      have h1b : monthLo (q0 :: qs) + i ≤ k := h1
      have h2b : k ≤ monthLo (q0 :: qs) + j := h2
      have hjn := List.mem_range.1 hjr
      obtain ⟨t, rfl⟩ : ∃ t, k = monthLo (q0 :: qs) + t :=
        ⟨k - monthLo (q0 :: qs), by omega⟩
      exact ⟨_, mem_month_range buckets q0 qs hq t (by omega)⟩

/-- C6, witness: over `exBuckets`, the 70000 business day makes its
month count 1, the month of the 69000 day gets no contribution from it
(its entry counts the threshold filter, which excludes it), and the
zero-qualifier month in between is present via the gap-free range. -/
theorem aggregate_month_counts_witness :
    ((5, 1) ∈ aggregate_sweep_days exBuckets ∧
      (1 : Nat) = (exBuckets.filter (fun b => qualifies b &&
        (monthOfDay b.key == 5))).length) ∧
    (qualifies ⟨100, some 70000, some true⟩ = true ∧
      ∃ c, (monthOfDay 100, c) ∈ aggregate_sweep_days exBuckets) ∧
    (∃ c, (6, c) ∈ aggregate_sweep_days exBuckets) := by
  have hm : (5, 1) ∈ aggregate_sweep_days exBuckets := by decide
  have hm7 : (7, 1) ∈ aggregate_sweep_days exBuckets := by decide
  refine ⟨⟨hm, ?_⟩, ⟨by decide, ?_⟩, ?_⟩
  · exact (aggregate_month_counts exBuckets).1 (5, 1) hm
  · exact (aggregate_month_counts exBuckets).2.1
      ⟨100, some 70000, some true⟩ (by decide) (by decide)
  · exact (aggregate_month_counts exBuckets).2.2 (5, 1) (7, 1) hm hm7 6
      (by decide) (by decide)

end Sweep
